import Mathlib

/-!
# Shallow embedding of the `lqo-leaderboard` pipeline

This file embeds the two source files of the repository:

* `src/app.py`     — Flask app with `update_leaderboard_func` (tiered seeding,
  `k_tresh`, no inactivity malus, checkpoint = max `createdAt` of all fetched
  games, leaderboard rebuilt wholesale);
* `src/updater.py` — standalone `update` routine (flat 1800 seeding, `k_thresh`,
  inactivity malus every `MALUS_INTERVAL`, checkpoint bounded by a stable
  cutoff `now - REFETCH_DELAY`, recomputed records `dict.update`d into the
  previously persisted leaderboard).

Modelling conventions:

* Python floats are modelled by exact rationals (`ℚ`).  The verified claims
  concern the structure of the computation (seeding, K-factor selection,
  result mapping, flooring at 1600, malus interleaving, checkpoint and merge
  logic), never float rounding.
* The transcendental functions of the model — the expected-score function
  `escore(elo) = 1/(1+10^(elo/400))` and the logarithmic time-control
  adjustments `adjust1`/`model1`/`model2` — cannot be represented exactly in
  `ℚ`.  Every recompute is therefore parametrised by a `Model` bundling those
  functions; every theorem below holds for all models, and witnesses
  instantiate a concrete rational stand-in.  No claim in scope depends on the
  numeric values these functions return.
* Timestamps (`createdAt`, epoch milliseconds) are `Int`, as Python ints.
* JSON records become structures; an optional JSON field becomes `Option`.
  The header `rating` field of a game player is `Option (Option Int)`:
  `none` = field absent, `some none` = present but `int()` conversion fails,
  `some (some n)` = converts to the integer `n`.
* Python `dict`s keyed by player name become insertion-ordered association
  lists (`List (String × _)`), with `dictInsert` writing a key in place (or
  appending a new key at the end) exactly as a Python dict does.
* `str.lower()` is modelled for the ASCII range (all account names in scope
  are ASCII).
* `datetime.strptime(..).timestamp()` in the source depends on the host time
  zone; the constants below are its UTC instantiation.  No claim depends on
  the specific values.
-/

/-! ## Common data model -/

/-- The `user` object inside a game player entry. -/
structure UserInfo where
  name : String
deriving DecidableEq, Repr

/-- One side (`players.white` / `players.black`) of a game record.
The `rating` field models the optional header rating:
`none` = absent, `some none` = present but not `int()`-convertible,
`some (some n)` = converts to `n`. -/
structure SideInfo where
  user : UserInfo
  rating : Option (Option Int) := none
deriving DecidableEq, Repr

/-- The optional `clock` object of a game record (`updater.py` reads it with
per-key defaults, hence the `Option` fields). -/
structure ClockInfo where
  initial : Option Int := none
  increment : Option Int := none
deriving DecidableEq, Repr

/-- A raw game record, with the fields the pipeline reads. -/
structure Game where
  id : String
  createdAt : Int
  white : SideInfo
  black : SideInfo
  status : String := ""
  winner : Option String := none
  pgn : Option String := none
  clock : Option ClockInfo := none
deriving DecidableEq, Repr

/-- Shared constant `LICHESS_USERNAME` (both files). -/
def LICHESS_USERNAME : String := "LeelaQueenOdds"

/-- `RATING_START_TIMESTAMP = int(datetime(2025, 2, 24).timestamp() * 1000)`
(UTC instantiation). -/
def RATING_START_TIMESTAMP : Int := 1740355200000

/-! ## Generic helpers -/

/-- ASCII lower-casing of one character (model of `str.lower()` per char). -/
def lowerChar (c : Char) : Char :=
  if 'A' ≤ c ∧ c ≤ 'Z' then Char.ofNat (c.toNat + 32) else c

/-- ASCII model of Python `str.lower()`. -/
def lowerString (s : String) : String := String.mk (s.data.map lowerChar)

/-- Digits-only string to number (helper for the `int()` model). -/
def digitsToNat (cs : List Char) : Option Nat :=
  if cs ≠ [] ∧ cs.all (·.isDigit) then
    some (cs.foldl (fun n c => 10 * n + (c.toNat - 48)) 0)
  else none

/-- Model of Python `int(s)` on a string: optional sign, then digits;
anything else raises (returns `none`). -/
def pyInt (s : String) : Option Int :=
  match s.data with
  | '-' :: rest => (digitsToNat rest).map (fun n => -(n : Int))
  | '+' :: rest => (digitsToNat rest).map (fun n => (n : Int))
  | cs => (digitsToNat cs).map (fun n => (n : Int))

/-- Split a character list at every occurrence of `sep`
(model of Python `str.split(sep)` for a one-character separator). -/
def splitOnChar (sep : Char) : List Char → List (List Char)
  | [] => [[]]
  | c :: cs =>
    let rest := splitOnChar sep cs
    if c = sep then [] :: rest
    else
      match rest with
      | [] => [[c]]
      | r :: rs => (c :: r) :: rs

/-- Model of `timecontrol.split('+')` followed by unpacking into exactly two
parts and `int()` conversion of both; `none` models the raised exception. -/
def splitTimeControl (tc : String) : Option (Int × Int) :=
  match splitOnChar '+' tc.data with
  | [a, b] =>
    match pyInt (String.mk a), pyInt (String.mk b) with
    | some t, some inc => some (t, inc)
    | _, _ => none
  | _ => none

/-- Insertion-ordered dictionary write: overwrite the key in place if present,
otherwise append the new key at the end (Python dict assignment). -/
def dictInsert {β : Type} (m : List (String × β)) (k : String) (v : β) :
    List (String × β) :=
  match m with
  | [] => [(k, v)]
  | (k0, v0) :: rest =>
    if k0 = k then (k, v) :: rest else (k0, v0) :: dictInsert rest k v

/-- Python `dict.update(other)`: write every key of `other` into `m` in order. -/
def dictUpdate {β : Type} (m other : List (String × β)) : List (String × β) :=
  other.foldl (fun acc kv => dictInsert acc kv.1 kv.2) m

/-- Civil date (UTC) from days since the Unix epoch
(Hinnant's algorithm, restricted to the positive range). -/
def civilFromDays (days : Nat) : Nat × Nat × Nat :=
  let z := days + 719468
  let era := z / 146097
  let doe := z % 146097
  let yoe := (doe - doe / 1460 + doe / 36524 - doe / 146096) / 365
  let doy := doe - (365 * yoe + yoe / 4 - yoe / 100)
  let mp := (5 * doy + 2) / 153
  let d := doy - (153 * mp + 2) / 5 + 1
  let m := if mp < 10 then mp + 3 else mp - 9
  let y := yoe + era * 400 + (if m ≤ 2 then 1 else 0)
  (y, m, d)

/-- Zero-padded two-digit decimal. -/
def natPad2 (n : Nat) : String := if n < 10 then "0" ++ toString n else toString n

/-- `datetime.utcfromtimestamp(ts / 1000).strftime("%Y<sep>%m<sep>%d")`
for an epoch-milliseconds timestamp (positive range). -/
def utcDate (sep : String) (ts : Int) : String :=
  let (y, m, d) := civilFromDays (ts / 86400000).toNat
  toString y ++ sep ++ natPad2 m ++ sep ++ natPad2 d

/-- Chronological sort used by both recomputes
(`sort(key=lambda g: g["createdAt"])`, a stable sort). -/
def sortByCreatedAt (gs : List Game) : List Game :=
  gs.mergeSort (fun a b => a.createdAt ≤ b.createdAt)

/-! ## Archive merge (app.py lines 281–287 and updater.py lines 186–194)

Both files run the identical loop: the set of ids present in the archive is
computed once, before the loop, and each incoming game is appended exactly
when its id is not in that pre-merge set.  (The set is not extended inside
the loop.) -/

/-- The archive-merge loop of both files. -/
def mergeGames (archiveGames newGames : List Game) : List Game :=
  let existingIds := archiveGames.map (·.id)
  newGames.foldl (fun ar g => if g.id ∈ existingIds then ar else ar ++ [g])
    archiveGames

/-! ## Fetch-loop model

Network traffic is modelled as the finite list of HTTP responses the server
returns, consumed one per request.  A run records the games accumulated and
the sequence of `time.sleep` durations performed.  When the response list is
exhausted the model returns the accumulated state (the real loop would issue
another request). -/

/-- One HTTP response of the games API. -/
inductive FetchResponse where
  | rateLimited (retryAfter : Option Int)
  | httpError (status : Nat)
  | ok (batch : List Game)
deriving DecidableEq, Repr

/-- Predicate: the response is not an HTTP 429. -/
def FetchResponse.isNot429 : FetchResponse → Bool
  | .rateLimited _ => false
  | _ => true

/-! ## `src/app.py` — `update_leaderboard_func` and `fetch_games` -/

namespace App

/-- `UPDATE_INTERVAL = 600`. -/
def UPDATE_INTERVAL : Int := 600

/-- Era breakpoints `elo_tresh` (app.py lines 299–302), UTC instantiation of
`datetime.strptime('2024.11.01'/'2024.11.12').timestamp()*1000`. -/
def elo_tresh_0 : Int := 1730419200000

/-- Second era breakpoint, `2024.11.12`. -/
def elo_tresh_1 : Int := 1731369600000

/-- `escore` / `adjust1` / `adjust2` of app.py are transcendental
(`10 ** (elo/400)` and `math.log`); a `Model` supplies them as rational-valued
functions, and every theorem holds for all models. -/
structure Model where
  escore : ℚ → ℚ
  adjust1 : String → ℚ
  adjust2 : String → ℚ

/-- `k_tresh(games_played)` (app.py lines 142–151): the loop over
`thresholds = [30, 150]`, `K_values = [40, 20, 10]` with `games_played <= t`. -/
def k_tresh (games_played : Nat) : ℚ :=
  if games_played ≤ 30 then 40
  else if games_played ≤ 150 then 20
  else 10

/-- The K-factor actually used for one update
(app.py lines 382–384: `k_tresh(games)`, halved when `r == 0.5`). -/
def kUsed (games_played : Nat) (r : ℚ) : ℚ :=
  let K := k_tresh games_played
  if r = 1/2 then K / 2 else K

/-- `inactivity_malus` (app.py lines 153–164).  Defined in app.py but never
called from `update_leaderboard_func`; records that carry a truthy `BOT`
entry are skipped.  The pair component is the `BOT` flag of the record. -/
def inactivity_malus (lead : List (String × (ℚ × Bool))) :
    List (String × (ℚ × Bool)) :=
  lead.map (fun pr =>
    if pr.2.2 then pr
    else
      let r := pr.2.1 - 10
      (pr.1, (if r < 1600 then 1600 else r, pr.2.2)))

/-- Whitespace class of the regex `\s`. -/
def isSpaceChar (c : Char) : Bool :=
  c = ' ' ∨ c = '\t' ∨ c = '\n' ∨ c = '\r' ∨ c = '\x0b' ∨ c = '\x0c'

/-- Match a literal character prefix, returning the remainder. -/
def stripLit : List Char → List Char → Option (List Char)
  | [], cs => some cs
  | _ :: _, [] => none
  | p :: ps, c :: cs => if p = c then stripLit ps cs else none

/-- Try to match the regex `\[<tag>\s+"([^"]+)"\]` at the head of `cs`,
returning the capture. -/
def matchTagHere (tag : String) (cs : List Char) : Option String :=
  match stripLit ('[' :: tag.data) cs with
  | none => none
  | some rest =>
    let ws := rest.takeWhile isSpaceChar
    let rest2 := rest.dropWhile isSpaceChar
    if ws = [] then none
    else
      match rest2 with
      | '"' :: rest3 =>
        let content := rest3.takeWhile (· ≠ '"')
        let rest4 := rest3.dropWhile (· ≠ '"')
        if content = [] then none
        else
          match rest4 with
          | '"' :: ']' :: _ => some (String.mk content)
          | _ => none
      | _ => none

/-- Scan left to right for the first match (model of `re.search`). -/
def searchTag (tag : String) : List Char → Option String
  | [] => none
  | c :: cs =>
    match matchTagHere tag (c :: cs) with
    | some v => some v
    | none => searchTag tag cs

/-- `extract_tag_from_pgn` (app.py lines 184–193): first match of
`\[Tag\s+"([^"]+)"\]`, else `"unknown"`. -/
def extract_tag_from_pgn (pgn tag : String) : String :=
  (searchTag tag pgn.data).getD "unknown"

/-- `parse_time_control_parts` (app.py lines 169–182): `(base, inc, total)`
with `total = base + 40 * inc`; `none` for `"unknown"` or a parse failure. -/
def parse_time_control_parts (tc : String) : Option (Int × Int × Int) :=
  if tc = "unknown" then none
  else
    match splitTimeControl tc with
    | some (base, inc) => some (base, inc, base + 40 * inc)
    | none => none

/-- The tiered seeding rule for a brand-new player (app.py lines 347–353). -/
def starting_rating (header_rating : Int) : ℚ :=
  if 2000 ≤ header_rating then 1800
  else if 1800 ≤ header_rating then (header_rating : ℚ) - 200
  else 1600

/-- `int(player_info.get("rating", 1600))` under `try/except` (app.py
lines 341–344): missing field or failed conversion defaults to 1600. -/
def header_rating_of (field : Option (Option Int)) : Int :=
  match field with
  | none => 1600
  | some none => 1600
  | some (some n) => n

/-- One player's leaderboard record during the recompute
(app.py lines 354–360). -/
structure PlayerRec where
  rating : ℚ
  games : Nat
  last_game : String
  tc_base_values : List Int
  tc_inc_values : List Int
deriving DecidableEq, Repr

/-- A fresh record for a first-appearance player, seeded by the tiered rule. -/
def freshRec (seed : ℚ) : PlayerRec :=
  { rating := seed, games := 0, last_game := "",
    tc_base_values := [], tc_inc_values := [] }

/-- `True` when the bot played Black, i.e.
`game["players"]["black"]["user"]["name"].lower() == LICHESS_USERNAME.lower()`
(app.py line 329). -/
def botIsBlack (g : Game) : Bool :=
  lowerString g.black.user.name = lowerString LICHESS_USERNAME

/-- The human's colour string (`player_color`, app.py lines 331/334). -/
def playerColor (g : Game) : String :=
  if botIsBlack g then "white" else "black"

/-- `game["players"][player_color]`. -/
def humanInfo (g : Game) : SideInfo :=
  if botIsBlack g then g.white else g.black

/-- The time-control string used for the game: the `TimeControl` PGN tag,
with `"unknown"` replaced by the fallback `"180+2"` (app.py lines 322–325). -/
def tcOf (g : Game) : String :=
  let tc := extract_tag_from_pgn (g.pgn.getD "") "TimeControl"
  if tc = "unknown" then "180+2" else tc

/-- Era-dependent bot baseline (app.py lines 311–319). -/
def botElo (ts : Int) : ℚ :=
  if ts < elo_tresh_0 then 1950
  else if ts < elo_tresh_1 then 2100
  else 2650

/-- Effective bot rating for the game: baseline minus the era's time-control
adjustment, minus a further 200 when the bot played Black
(app.py lines 327–335). -/
def botEloAdjusted (M : Model) (g : Game) : ℚ :=
  let ts := g.createdAt
  let adjust := if ts < elo_tresh_1 then M.adjust1 else M.adjust2
  if botIsBlack g then botElo ts - adjust (tcOf g) - 200
  else botElo ts - adjust (tcOf g)

/-- Result from the human's perspective (app.py lines 371–376):
`0.5` iff `status == "draw"`, else `1.0` iff `winner == player_color`,
else `0.0`.  A missing `winner` compares unequal to any colour. -/
def resultFor (g : Game) : ℚ :=
  if g.status = "draw" then 1/2
  else if g.winner = some (playerColor g) then 1
  else 0

/-- The per-game update of one player record (app.py lines 362–395): record
the parsed time control, compute the result, the (possibly halved) K-factor,
the logistic adjustment against the effective bot rating, floor the new
rating at 1600, bump the game count and stamp the date. -/
def updateRec (M : Model) (g : Game) (rec : PlayerRec) : PlayerRec :=
  let rec1 :=
    match parse_time_control_parts (tcOf g) with
    | some (base, inc, _) =>
      { rec with tc_base_values := rec.tc_base_values ++ [base],
                 tc_inc_values := rec.tc_inc_values ++ [inc] }
    | none => rec
  let r := resultFor g
  let K := kUsed rec1.games r
  let rating_diff := botEloAdjusted M g - rec1.rating
  let adjustment := (r - M.escore rating_diff) * K
  let newRating := rec1.rating + adjustment
  { rec1 with rating := max 1600 newRating,
              games := rec1.games + 1,
              last_game := utcDate "." g.createdAt }

/-- One iteration of the recompute loop (app.py lines 308–395): look the
human up (seeding a fresh record on first appearance, app.py lines 346–360),
update it, and write it back. -/
def processGame (M : Model) (lb : List (String × PlayerRec)) (g : Game) :
    List (String × PlayerRec) :=
  let info := humanInfo g
  let player := info.user.name
  let rec0 :=
    match lb.lookup player with
    | some r => r
    | none => freshRec (starting_rating (header_rating_of info.rating))
  dictInsert lb player (updateRec M g rec0)

/-- The full recompute (app.py lines 303–395): filter the archive to games at
or after `RATING_START_TIMESTAMP`, sort chronologically, fold the per-game
update starting from the empty dict `new_leaderboard = {}`. -/
def recompute (M : Model) (archiveGames : List Game) :
    List (String × PlayerRec) :=
  let filtered := archiveGames.filter
    (fun g => RATING_START_TIMESTAMP ≤ g.createdAt)
  (sortByCreatedAt filtered).foldl (processGame M) []

/-- A finalised record of the published leaderboard (app.py lines 397–412):
the temporary time-control lists are replaced by the average-TC string. -/
structure FinalRec where
  rating : ℚ
  games : Nat
  last_game : String
  average_time_control : String
deriving DecidableEq, Repr

/-- Python `round()` (half-to-even) on an exact rational. -/
def pyRound (q : ℚ) : Int :=
  let f := ⌊q⌋
  let frac := q - f
  if frac < 1/2 then f
  else if 1/2 < frac then f + 1
  else if f % 2 = 0 then f else f + 1

/-- Average-TC computation and cleanup for one record
(app.py lines 398–412): `int(round(avg_base / 60))` minutes plus
`int(round(avg_inc))`, or `"?"` when no time control was recorded. -/
def finalizeRec (rec : PlayerRec) : FinalRec :=
  let atc :=
    if rec.tc_base_values ≠ [] ∧ rec.tc_inc_values ≠ [] then
      let avg_base : ℚ :=
        (rec.tc_base_values.map (fun n => (n : ℚ))).sum / rec.tc_base_values.length
      let avg_inc : ℚ :=
        (rec.tc_inc_values.map (fun n => (n : ℚ))).sum / rec.tc_inc_values.length
      toString (pyRound (avg_base / 60)) ++ "+" ++ toString (pyRound avg_inc)
    else "?"
  { rating := rec.rating, games := rec.games, last_game := rec.last_game,
    average_time_control := atc }

/-- Descending sort by rating (app.py line 415, `sorted(..., reverse=True)`,
a stable sort). -/
def sortDescByRating (lb : List (String × FinalRec)) :
    List (String × FinalRec) :=
  lb.mergeSort (fun a b => b.2.rating ≤ a.2.rating)

/-- The player records published by one update cycle (app.py lines 303–419):
rebuilt wholesale from the archive.  The prior leaderboard contributes only
its `metadata` block, which holds no player record. -/
def cycleRecords (M : Model) (archiveGames : List Game) :
    List (String × FinalRec) :=
  sortDescByRating ((recompute M archiveGames).map
    (fun pr => (pr.1, finalizeRec pr.2)))

/-- The published leaderboard of one cycle: player records plus the metadata
block carried over from the prior leaderboard (app.py lines 416–419). -/
structure Leaderboard where
  records : List (String × FinalRec)
  last_fetch : Int
  next_update : Int
deriving DecidableEq, Repr

/-- `last_fetch` advancement (app.py lines 290–295): the maximum `createdAt`
over all fetched games, with no stability cutoff; unchanged when nothing was
fetched. -/
def app_last_fetch (last_fetch : Int) (newGames : List Game) : Int :=
  match newGames.map (·.createdAt) with
  | [] => last_fetch
  | t :: ts => ts.foldl max t

/-- One full update cycle of app.py given the games fetched this cycle
(app.py lines 258–420): merge, advance the checkpoint, recompute wholesale,
carry the metadata over. -/
def cycle (M : Model) (prior : Leaderboard) (archiveGames newGames : List Game)
    (now_s : Int) : Leaderboard :=
  let merged := mergeGames archiveGames newGames
  { records := cycleRecords M merged,
    last_fetch := app_last_fetch prior.last_fetch newGames,
    next_update := now_s + UPDATE_INTERVAL }

/-- The `fetch_games` loop of app.py (lines 214–246) over a modelled response
list: on 429 sleep `int(headers.get("Retry-After", 10))` and re-issue the
same request; on another non-200 status break; on a batch, extend the
accumulator, advance `since` past the last game, sleep 1, and stop when the
batch was short or the pointer passed `until`. -/
def fetchGamesLoop (since : Int) (untilOpt : Option Int) :
    List FetchResponse → List Game → List Int → List Game × List Int
  | [], acc, sleeps => (acc, sleeps)
  | resp :: rest, acc, sleeps =>
    match resp with
    | .rateLimited ra =>
      fetchGamesLoop since untilOpt rest acc (sleeps ++ [ra.getD 10])
    | .httpError _ => (acc, sleeps)
    | .ok [] => (acc, sleeps)
    | .ok (b :: bs) =>
      let batch := b :: bs
      let acc2 := acc ++ batch
      let since2 := (batch.getLast (List.cons_ne_nil b bs)).createdAt + 1
      let sleeps2 := sleeps ++ [1]
      if batch.length < 300 then (acc2, sleeps2)
      else
        match untilOpt with
        | some u =>
          if u < since2 then (acc2, sleeps2)
          else fetchGamesLoop since2 untilOpt rest acc2 sleeps2
        | none => fetchGamesLoop since2 untilOpt rest acc2 sleeps2

/-- `fetch_games(since, until)` over a modelled response list, returning the
accumulated games and the performed sleeps. -/
def fetch_games (since : Int) (untilOpt : Option Int)
    (responses : List FetchResponse) : List Game × List Int :=
  fetchGamesLoop since untilOpt responses [] []

end App

/-! ## `src/updater.py` — `update` and its helpers -/

namespace Updater

/-- `BOT_BASE_RATING = 2650`. -/
def BOT_BASE_RATING : ℚ := 2650

/-- `BLACK_PENALTY = 200`. -/
def BLACK_PENALTY : ℚ := 200

/-- `INITIAL_PLAYER_RATING = 1800`. -/
def INITIAL_PLAYER_RATING : ℚ := 1800

/-- `MALUS_INTERVAL = 30 * 86400 * 1000` (30 days in ms). -/
def MALUS_INTERVAL : Int := 30 * 86400 * 1000

/-- `REFETCH_DELAY = 3 * 60 * 60 * 1000` (3 hours in ms). -/
def REFETCH_DELAY : Int := 3 * 60 * 60 * 1000

/-- `escore` and `model1` (= `adjust_func`) of updater.py are transcendental;
a `Model` supplies them as rational-valued functions, and every theorem holds
for all models. -/
structure Model where
  escore : ℚ → ℚ
  adjust_func : String → ℚ

/-- `k_thresh(games)` (updater.py lines 140–146): strict `<` comparisons. -/
def k_thresh (games : Nat) : ℚ :=
  if games < 30 then 40
  else if games < 150 then 20
  else 10

/-- The K-factor actually used for one update (updater.py lines 253–257):
`k_thresh` of the games played so far, halved when the result is a draw. -/
def kUsed (total_games : Nat) (result : ℚ) : ℚ :=
  let K := k_thresh total_games
  if result = 1/2 then K / 2 else K

/-- One player's record during the recompute (updater.py line 243).  Records
created by the loop never set `BOT`; the field models the
`lead[player].get('BOT', False)` exemption check. -/
structure PlayerRec where
  rating : ℚ
  W : Nat
  D : Nat
  L : Nat
  last_game : String
  tc_bases : List Int
  tc_incs : List Int
  BOT : Bool := false
deriving DecidableEq, Repr

/-- The fresh record for a first-appearance player (updater.py line 243):
seeded at the flat `INITIAL_PLAYER_RATING`, independent of any header
rating. -/
def freshRec : PlayerRec :=
  { rating := INITIAL_PLAYER_RATING, W := 0, D := 0, L := 0, last_game := "",
    tc_bases := [], tc_incs := [], BOT := false }

/-- `inactivity_malus` (updater.py lines 148–155): every record whose `BOT`
flag is not set loses 10 points, re-floored at 1600. -/
def inactivity_malus (lead : List (String × PlayerRec)) :
    List (String × PlayerRec) :=
  lead.map (fun pr =>
    if pr.2.BOT then pr
    else
      let r := pr.2.rating - 10
      (pr.1, { pr.2 with rating := if r < 1600 then 1600 else r }))

/-- State threaded through the recompute loop: the players dict and the
malus tracking date (updater.py lines 213–214). -/
structure UState where
  players : List (String × PlayerRec)
  malus_date : Int
deriving Repr

/-- `(base, inc)` from the game's `clock` object with the source's defaults
(updater.py lines 225–227). -/
def clockParts (g : Game) : Int × Int :=
  match g.clock with
  | none => (180, 2)
  | some c => (c.initial.getD 180, c.increment.getD 2)

/-- `tc_str = f"{base}+{inc}"` (updater.py line 228). -/
def tcStr (g : Game) : String :=
  let (base, inc) := clockParts g
  base.repr ++ "+" ++ inc.repr

/-- `True` when the bot played White
(`g["players"]["white"]["user"]["name"].lower() == LICHESS_USERNAME.lower()`,
updater.py line 231). -/
def botIsWhite (g : Game) : Bool :=
  lowerString g.white.user.name = lowerString LICHESS_USERNAME

/-- The human's colour string (updater.py line 232). -/
def humanColor (g : Game) : String :=
  if botIsWhite g then "black" else "white"

/-- `g["players"][human_color]`. -/
def humanInfo (g : Game) : SideInfo :=
  if botIsWhite g then g.black else g.white

/-- Effective bot rating (updater.py lines 236–239): the base rating, minus
`BLACK_PENALTY` when the bot played Black, minus the time-control
adjustment. -/
def effectiveBotRating (M : Model) (g : Game) : ℚ :=
  let afterColor :=
    if botIsWhite g then BOT_BASE_RATING else BOT_BASE_RATING - BLACK_PENALTY
  afterColor - M.adjust_func (tcStr g)

/-- Result from the human's perspective (updater.py lines 246–251):
a record without a `winner` field is a draw. -/
def resultFor (g : Game) : ℚ :=
  match g.winner with
  | none => 1/2
  | some w => if w = humanColor g then 1 else 0

/-- The per-game update of one player record (updater.py lines 253–273):
K-factor from the games played so far (halved for draws), logistic delta
against the effective bot rating, floor at 1600, then the W/D/L bump, the
date stamp and the time-control accumulators. -/
def updateRec (M : Model) (g : Game) (rec : PlayerRec) : PlayerRec :=
  let result := resultFor g
  let total_games := rec.W + rec.D + rec.L
  let K := kUsed total_games result
  let delta := (result - M.escore (effectiveBotRating M g - rec.rating)) * K
  let newRating := max 1600 (rec.rating + delta)
  let (base, inc) := clockParts g
  { rec with
    rating := newRating,
    W := if result = 1 then rec.W + 1 else rec.W,
    D := if result ≠ 1 ∧ result = 1/2 then rec.D + 1 else rec.D,
    L := if result ≠ 1 ∧ result ≠ 1/2 then rec.L + 1 else rec.L,
    last_game := utcDate "-" g.createdAt,
    tc_bases := rec.tc_bases ++ [base],
    tc_incs := rec.tc_incs ++ [inc] }

/-- The body of one loop iteration after the malus check (updater.py
lines 225–273): look the human up (seeding the flat fresh record on first
appearance, updater.py lines 241–243), update, write back. -/
def processGameBody (M : Model) (st : UState) (g : Game) : UState :=
  let player := (humanInfo g).user.name
  let rec0 :=
    match st.players.lookup player with
    | some r => r
    | none => freshRec
  { st with players := dictInsert st.players player (updateRec M g rec0) }

/-- One loop iteration (updater.py lines 216–273): skip games before the
rating start; when at least `MALUS_INTERVAL` has elapsed since `malus_date`,
apply the inactivity malus once and reset `malus_date` to this game's
timestamp, then process the game itself. -/
def processGame (M : Model) (st : UState) (g : Game) : UState :=
  if g.createdAt < RATING_START_TIMESTAMP then st
  else if MALUS_INTERVAL ≤ g.createdAt - st.malus_date then
    processGameBody M
      { players := inactivity_malus st.players, malus_date := g.createdAt } g
  else processGameBody M st g

/-- The full recompute (updater.py lines 213–273): fold over the archive in
chronological order, starting from the empty players dict with
`malus_date = RATING_START_TIMESTAMP`. -/
def recompute (M : Model) (archiveGames : List Game) : UState :=
  (sortByCreatedAt archiveGames).foldl (processGame M)
    { players := [], malus_date := RATING_START_TIMESTAMP }

/-- A finalised record (updater.py lines 276–283): the accumulator lists are
replaced by the `Average_TC` string `f"{avg_base // 60}+{avg_inc}"`. -/
structure FinalRec where
  rating : ℚ
  W : Nat
  D : Nat
  L : Nat
  last_game : String
  Average_TC : String
  BOT : Bool := false
deriving DecidableEq, Repr

/-- Python floor division by 60 of an int. -/
def floorDiv60 (n : Int) : Int := Int.fdiv n 60

/-- Finalise one record (updater.py lines 276–283): `round` the mean base
and increment (0 when no game was recorded), floor-divide the base by 60. -/
def finalizeRec (rec : PlayerRec) : FinalRec :=
  let (avg_base, avg_inc) :=
    if rec.tc_bases ≠ [] then
      (App.pyRound ((rec.tc_bases.map (fun n => (n : ℚ))).sum / rec.tc_bases.length),
       App.pyRound ((rec.tc_incs.map (fun n => (n : ℚ))).sum / rec.tc_incs.length))
    else (0, 0)
  { rating := rec.rating, W := rec.W, D := rec.D, L := rec.L,
    last_game := rec.last_game,
    Average_TC := (floorDiv60 avg_base).repr ++ "+" ++ avg_inc.repr,
    BOT := rec.BOT }

/-- The player records persisted by one update cycle (updater.py lines
285–286): `leaderboard.update(players)` — the recomputed records are merged
into the previously persisted mapping, whose other entries stay. -/
def cycleRecords (M : Model) (priorRecords : List (String × FinalRec))
    (archiveGames : List Game) : List (String × FinalRec) :=
  dictUpdate priorRecords
    ((recompute M archiveGames).players.map (fun pr => (pr.1, finalizeRec pr.2)))

/-- Checkpoint advancement (updater.py lines 189–197): starting from the
stored `last_fetch`, take every fetched game with
`createdAt <= safe_cutoff` and `createdAt > latest` as the new latest. -/
def latestStableTimestamp (last_fetch safe_cutoff : Int)
    (newGames : List Game) : Int :=
  newGames.foldl
    (fun latest g =>
      if g.createdAt ≤ safe_cutoff ∧ latest < g.createdAt then g.createdAt
      else latest)
    last_fetch

/-- The checkpoint written by one cycle (updater.py lines 171–208):
`safe_cutoff = current_time - REFETCH_DELAY`. -/
def cycleCheckpoint (last_fetch current_time : Int) (newGames : List Game) :
    Int :=
  latestStableTimestamp last_fetch (current_time - REFETCH_DELAY) newGames

/-- The successive checkpoints along a sequence of cycles, each cycle given
as its `current_time` and the games it fetched. -/
def runCheckpoints (lf0 : Int) : List (Int × List Game) → List Int
  | [] => []
  | c :: cs =>
    let lf1 := cycleCheckpoint lf0 c.1 c.2
    lf1 :: runCheckpoints lf1 cs

/-- The `fetch_games_chunk` retry loop of updater.py (lines 34–64) over a
modelled response list: on 429 sleep a fixed 60 seconds (the `Retry-After`
header is never read), on another non-200 status sleep 10, and in both cases
re-issue the same request; a 200 response returns its decoded batch. -/
def fetchChunkLoop (since : Int) (untilOpt : Option Int) :
    List FetchResponse → List Int → List Game × List Int
  | [], sleeps => ([], sleeps)
  | resp :: rest, sleeps =>
    match resp with
    | .rateLimited _ => fetchChunkLoop since untilOpt rest (sleeps ++ [60])
    | .httpError _ => fetchChunkLoop since untilOpt rest (sleeps ++ [10])
    | .ok batch => (batch, sleeps)

/-- `fetch_games_chunk(since, until)` over a modelled response list,
returning the decoded games and the performed sleeps. -/
def fetch_games_chunk (since : Int) (untilOpt : Option Int)
    (responses : List FetchResponse) : List Game × List Int :=
  fetchChunkLoop since untilOpt responses []

end Updater

/-! ## Concrete instantiations used by witnesses and counterexamples

The transcendental `escore`/adjustment functions are instantiated by simple
rational stand-ins; every general theorem above the witnesses holds for all
models, so any instantiation is admissible for exhibiting concrete runs. -/

/-- App model with constant expected score `1/2` and zero adjustments. -/
def appTestModel : App.Model :=
  { escore := fun _ => 1/2, adjust1 := fun _ => 0, adjust2 := fun _ => 0 }

/-- Updater model with constant expected score `1/2` and zero adjustment. -/
def updTestModel : Updater.Model :=
  { escore := fun _ => 1/2, adjust_func := fun _ => 0 }

/-- A loss by `alice` (White, header rating 1750) against the bot as Black,
at the rating-start timestamp. -/
def gAliceLoss : Game :=
  { id := "ga1", createdAt := 1740355200000,
    white := { user := { name := "alice" }, rating := some (some 1750) },
    black := { user := { name := "LeelaQueenOdds" } },
    status := "mate", winner := some "black" }

/-- A no-`winner` game for `bob` (White, header rating 1750) against the bot
as Black (a draw for updater.py). -/
def gBobDraw : Game :=
  { id := "gb1", createdAt := 1740355200000,
    white := { user := { name := "bob" }, rating := some (some 1750) },
    black := { user := { name := "LeelaQueenOdds" } },
    status := "draw", winner := none }

/-- A win by `carol` (White) against the bot as Black. -/
def gCarolWin : Game :=
  { id := "gc1", createdAt := 1740355200000,
    white := { user := { name := "carol" }, rating := some (some 1900) },
    black := { user := { name := "LeelaQueenOdds" } },
    status := "mate", winner := some "white" }

/-- A game with no `winner` field whose `status` is not `"draw"`. -/
def gAborted : Game :=
  { id := "gab1", createdAt := 1740355200000,
    white := { user := { name := "dave" }, rating := some (some 1500) },
    black := { user := { name := "LeelaQueenOdds" } },
    status := "aborted", winner := none }

/-- A just-finished game, inside the trailing 3-hour re-fetch window of a
cycle whose `current_time` equals its `createdAt`. -/
def gJustNow : Game :=
  { id := "gn1", createdAt := 1741000000000,
    white := { user := { name := "erin" } },
    black := { user := { name := "LeelaQueenOdds" } } }

/-- A game for `bob` falling exactly at `malus_date + MALUS_INTERVAL`. -/
def gBobBoundary : Game :=
  { id := "gbb1", createdAt := 1740355200000 + 30 * 86400 * 1000,
    white := { user := { name := "bob" }, rating := some (some 1750) },
    black := { user := { name := "LeelaQueenOdds" } },
    status := "draw", winner := none }

/-- A first-appearance game whose human entry carries a malformed
(`int()`-rejected) header rating. -/
def gMalformed : Game :=
  { id := "gm1", createdAt := 1740355200000,
    white := { user := { name := "frank" }, rating := some none },
    black := { user := { name := "LeelaQueenOdds" } },
    status := "mate", winner := some "black" }

/-- An app-side player record with 30 games already played (so the next
processed game is that player's 31st). -/
def rec30 : App.PlayerRec :=
  { rating := 1700, games := 30, last_game := "",
    tc_base_values := [], tc_inc_values := [] }

/-- An updater-side non-exempt record at rating 1700. -/
def recAlice1700 : Updater.PlayerRec :=
  { rating := 1700, W := 1, D := 0, L := 0, last_game := "",
    tc_bases := [180], tc_incs := [2] }

/-- A stale finalised record persisted by an earlier updater cycle. -/
def recGhost : Updater.FinalRec :=
  { rating := 1700, W := 1, D := 0, L := 0, last_game := "2025-03-01",
    Average_TC := "3+2" }

/-! ## Helper lemmas -/

/-- `dictInsert` reads back the written key. -/
theorem dictInsert_lookup_self {β : Type} (m : List (String × β)) (k : String)
    (v : β) : (dictInsert m k v).lookup k = some v := by
  induction m with
  | nil => simp [dictInsert, List.lookup]
  | cons hd tl ih =>
    by_cases h : hd.1 = k
    · simp [dictInsert, h, List.lookup]
    · have hb : (k == hd.1) = false :=
        beq_eq_false_iff_ne.mpr (fun hkk => h hkk.symm)
      simp [dictInsert, h, List.lookup, hb, ih]

/-- `dictInsert` leaves other keys unchanged. -/
theorem dictInsert_lookup_other {β : Type} (m : List (String × β))
    (k k' : String) (v : β) (hk : k' ≠ k) :
    (dictInsert m k v).lookup k' = m.lookup k' := by
  have hb : (k' == k) = false := beq_eq_false_iff_ne.mpr hk
  induction m with
  | nil => simp [dictInsert, List.lookup, hb]
  | cons hd tl ih =>
    by_cases h : hd.1 = k
    · subst h
      simp [dictInsert, List.lookup, hb]
    · simp [dictInsert, h, List.lookup, ih]

/-- Every entry of `dictInsert m k v` is an entry of `m` or carries `v`. -/
theorem mem_dictInsert {β : Type} {m : List (String × β)} {k : String}
    {v : β} {pr : String × β} (h : pr ∈ dictInsert m k v) :
    pr ∈ m ∨ pr.2 = v := by
  induction m with
  | nil =>
    simp [dictInsert] at h
    simp [h]
  | cons hd tl ih =>
    by_cases hk : hd.1 = k
    · simp [dictInsert, hk] at h
      rcases h with h | h
      · right; simp [h]
      · left; simp [h]
    · simp [dictInsert, hk] at h
      rcases h with h | h
      · left; simp [h]
      · rcases ih h with h2 | h2
        · left; simp [h2]
        · right; exact h2

/-- The merge loop with a fixed id set, as an append of a filter. -/
theorem mergeLoop_eq (ids : List String) (gs : List Game) : ∀ B : List Game,
    gs.foldl (fun ar g => if g.id ∈ ids then ar else ar ++ [g]) B
      = B ++ gs.filter (fun g => g.id ∉ ids) := by
  induction gs with
  | nil => intro B; simp
  | cons g gs ih =>
    intro B
    by_cases h : g.id ∈ ids
    · simp [h, ih]
    · simp [h, ih]

/-- `mergeGames` appends exactly the incoming games whose id is absent from
the pre-merge archive. -/
theorem mergeGames_eq_append (A gs : List Game) :
    mergeGames A gs = A ++ gs.filter (fun g => g.id ∉ A.map (·.id)) := by
  unfold mergeGames
  exact mergeLoop_eq (A.map (·.id)) gs A

/-- Re-merging the same batch into the merged archive is a no-op. -/
theorem mergeGames_self_idem (A gs : List Game) :
    mergeGames (mergeGames A gs) gs = mergeGames A gs := by
  rw [mergeGames_eq_append A gs, mergeGames_eq_append]
  have h : (gs.filter
      (fun g => g.id ∉ ((A ++ gs.filter (fun g => g.id ∉ A.map (·.id))).map (·.id)))) = [] := by
    rw [List.filter_eq_nil_iff]
    intro g hg
    simp only [decide_eq_true_eq, Decidable.not_not, List.map_append, List.mem_append]
    by_cases hA : g.id ∈ A.map (·.id)
    · exact Or.inl hA
    · refine Or.inr ?_
      refine List.mem_map.mpr ⟨g, ?_, rfl⟩
      exact List.mem_filter.mpr ⟨hg, by simpa using hA⟩
  rw [h, List.append_nil]

/-- Merging a game whose id is already archived is a no-op. -/
theorem mergeGames_mem_noop (A : List Game) (g : Game)
    (h : g.id ∈ A.map (·.id)) : mergeGames A [g] = A := by
  rw [mergeGames_eq_append]
  simp [List.filter, h]

/-- The merge preserves id-uniqueness when the incoming batch itself has
pairwise distinct ids. -/
theorem mergeGames_nodup (A gs : List Game)
    (hA : (A.map (·.id)).Nodup) (hgs : (gs.map (·.id)).Nodup) :
    ((mergeGames A gs).map (·.id)).Nodup := by
  rw [mergeGames_eq_append, List.map_append]
  refine List.Nodup.append hA ?_ ?_
  · exact hgs.sublist (List.Sublist.map _ (List.filter_sublist gs))
  · intro x hxA hxF
    rcases List.mem_map.mp hxF with ⟨g, hgF, rfl⟩
    have := (List.mem_filter.mp hgF).2
    simp only [decide_eq_true_eq] at this
    exact this hxA

/-- The per-cycle checkpoint never moves backwards. -/
theorem latestStable_ge : ∀ (gs : List Game) (lf c : Int),
    lf ≤ Updater.latestStableTimestamp lf c gs := by
  intro gs
  induction gs with
  | nil => intro lf c; simp [Updater.latestStableTimestamp]
  | cons g gs ih =>
    intro lf c
    have h1 : Updater.latestStableTimestamp lf c (g :: gs)
        = Updater.latestStableTimestamp
            (if g.createdAt ≤ c ∧ lf < g.createdAt then g.createdAt else lf)
            c gs := rfl
    rw [h1]
    refine le_trans ?_ (ih _ c)
    split
    · next h => exact le_of_lt h.2
    · exact le_refl lf

/-- The per-cycle checkpoint never passes the stable cutoff (provided the
stored checkpoint did not already). -/
theorem latestStable_le : ∀ (gs : List Game) (lf c : Int), lf ≤ c →
    Updater.latestStableTimestamp lf c gs ≤ c := by
  intro gs
  induction gs with
  | nil => intro lf c h; simpa [Updater.latestStableTimestamp] using h
  | cons g gs ih =>
    intro lf c h
    have h1 : Updater.latestStableTimestamp lf c (g :: gs)
        = Updater.latestStableTimestamp
            (if g.createdAt ≤ c ∧ lf < g.createdAt then g.createdAt else lf)
            c gs := rfl
    rw [h1]
    refine ih _ c ?_
    split
    · next hcond => exact hcond.1
    · exact h

/-- The checkpoint loop computes exactly the maximum `createdAt` over the
fetched games at or before the cutoff (and the stored checkpoint). -/
theorem latestStable_eq_max : ∀ (gs : List Game) (lf c : Int),
    Updater.latestStableTimestamp lf c gs
      = (gs.filter (fun g => g.createdAt ≤ c)).foldl
          (fun a g => max a g.createdAt) lf := by
  intro gs
  induction gs with
  | nil => intro lf c; rfl
  | cons g gs ih =>
    intro lf c
    by_cases hc : g.createdAt ≤ c
    · have h1 : Updater.latestStableTimestamp lf c (g :: gs)
          = Updater.latestStableTimestamp
              (if lf < g.createdAt then g.createdAt else lf) c gs := by
        simp [Updater.latestStableTimestamp, List.foldl_cons, hc]
      have h2 : (if lf < g.createdAt then g.createdAt else lf)
          = max lf g.createdAt := by
        rcases lt_or_ge lf g.createdAt with h | h
        · simp [h, max_eq_right (le_of_lt h)]
        · simp [not_lt.mpr h, max_eq_left h]
      rw [h1, h2, ih]
      simp [hc]
    · have h1 : Updater.latestStableTimestamp lf c (g :: gs)
          = Updater.latestStableTimestamp lf c gs := by
        simp [Updater.latestStableTimestamp, List.foldl_cons, hc]
      rw [h1, ih]
      simp [hc]

/-- The checkpoints along any cycle sequence form a non-decreasing chain. -/
theorem runCheckpoints_chain (cs : List (Int × List Game)) : ∀ lf0 : Int,
    List.Chain' (· ≤ ·) (lf0 :: Updater.runCheckpoints lf0 cs) := by
  induction cs with
  | nil => intro lf0; simp [Updater.runCheckpoints]
  | cons c cs ih =>
    intro lf0
    rw [Updater.runCheckpoints, List.chain'_cons]
    exact ⟨latestStable_ge c.2 lf0 _, ih _⟩

/-- Along any cycle sequence with non-decreasing clock readings, every
persisted checkpoint stays at or before its cycle's stable cutoff. -/
theorem runCheckpoints_bounded : ∀ (cs : List (Int × List Game)) (lf0 : Int),
    (∀ c ∈ cs.head?, lf0 ≤ c.1 - Updater.REFETCH_DELAY) →
    List.Chain' (fun a b => a.1 ≤ b.1) cs →
    List.Forall₂ (fun lf c => lf ≤ c.1 - Updater.REFETCH_DELAY)
      (Updater.runCheckpoints lf0 cs) cs := by
  intro cs
  induction cs with
  | nil => intro lf0 _ _; simp [Updater.runCheckpoints]
  | cons c cs ih =>
    intro lf0 hhead hchain
    have h0 : lf0 ≤ c.1 - Updater.REFETCH_DELAY := hhead c (by simp)
    have h1 : Updater.cycleCheckpoint lf0 c.1 c.2 ≤ c.1 - Updater.REFETCH_DELAY :=
      latestStable_le c.2 lf0 _ h0
    rw [Updater.runCheckpoints]
    refine List.Forall₂.cons h1 (ih _ ?_ ?_)
    · intro c' hc'
      have hcc : c.1 ≤ c'.1 := (List.chain'_cons'.mp hchain).1 c' hc'
      refine le_trans h1 ?_
      omega
    · exact (List.chain'_cons'.mp hchain).2

/-- The games returned by the fetch loop do not depend on the sleep log. -/
theorem fetchLoop_games_indep :
    ∀ (rs : List FetchResponse) (since : Int) (u : Option Int)
      (acc : List Game) (s s' : List Int),
    (App.fetchGamesLoop since u rs acc s).1
      = (App.fetchGamesLoop since u rs acc s').1 := by
  intro rs
  induction rs with
  | nil => intro since u acc s s'; rfl
  | cons r rest ih =>
    intro since u acc s s'
    cases r with
    | rateLimited ra => exact ih since u acc _ _
    | httpError st => rfl
    | ok batch =>
      cases batch with
      | nil => rfl
      | cons b bs =>
        simp only [App.fetchGamesLoop]
        by_cases hlen : (b :: bs).length < 300
        · rw [if_pos hlen, if_pos hlen]
        · rw [if_neg hlen, if_neg hlen]
          cases u with
          | none => exact ih _ _ _ _ _
          | some uu =>
            dsimp only
            by_cases hu : uu < ((b :: bs).getLast (List.cons_ne_nil b bs)).createdAt + 1
            · rw [if_pos hu, if_pos hu]
            · rw [if_neg hu, if_neg hu]
              exact ih _ _ _ _ _

/-- Removing the 429 responses from the traffic does not change the games
the fetch loop returns: rate-limit retries lose no progress. -/
theorem fetchLoop_games_filter429 :
    ∀ (rs : List FetchResponse) (since : Int) (u : Option Int)
      (acc : List Game) (s : List Int),
    (App.fetchGamesLoop since u rs acc s).1
      = (App.fetchGamesLoop since u (rs.filter FetchResponse.isNot429) acc s).1 := by
  intro rs
  induction rs with
  | nil => intro since u acc s; rfl
  | cons r rest ih =>
    intro since u acc s
    cases r with
    | rateLimited ra =>
      have h1 : ((FetchResponse.rateLimited ra :: rest).filter
          FetchResponse.isNot429) = rest.filter FetchResponse.isNot429 := by
        simp [List.filter, FetchResponse.isNot429]
      rw [h1]
      have h2 : (App.fetchGamesLoop since u (.rateLimited ra :: rest) acc s).1
          = (App.fetchGamesLoop since u rest acc (s ++ [ra.getD 10])).1 := rfl
      rw [h2, ih since u acc _]
      exact fetchLoop_games_indep _ _ _ _ _ _
    | httpError st =>
      have h1 : ((FetchResponse.httpError st :: rest).filter
          FetchResponse.isNot429)
          = .httpError st :: rest.filter FetchResponse.isNot429 := by
        simp [List.filter, FetchResponse.isNot429]
      rw [h1]
      rfl
    | ok batch =>
      have h1 : ((FetchResponse.ok batch :: rest).filter FetchResponse.isNot429)
          = .ok batch :: rest.filter FetchResponse.isNot429 := by
        simp [List.filter, FetchResponse.isNot429]
      rw [h1]
      cases batch with
      | nil => rfl
      | cons b bs =>
        simp only [App.fetchGamesLoop]
        by_cases hlen : (b :: bs).length < 300
        · rw [if_pos hlen, if_pos hlen]
        · rw [if_neg hlen, if_neg hlen]
          cases u with
          | none => exact ih _ _ _ _
          | some uu =>
            dsimp only
            by_cases hu : uu < ((b :: bs).getLast (List.cons_ne_nil b bs)).createdAt + 1
            · rw [if_pos hu, if_pos hu]
            · rw [if_neg hu, if_neg hu]
              exact ih _ _ _ _

/-- Every app-side per-game update lands at or above the 1600 floor. -/
theorem app_updateRec_ge (M : App.Model) (g : Game) (rec : App.PlayerRec) :
    1600 ≤ (App.updateRec M g rec).rating := by
  unfold App.updateRec
  split
  · exact le_max_left _ _
  · exact le_max_left _ _

/-- Every updater-side per-game update lands at or above the 1600 floor. -/
theorem upd_updateRec_ge (M : Updater.Model) (g : Game)
    (rec : Updater.PlayerRec) : 1600 ≤ (Updater.updateRec M g rec).rating := by
  unfold Updater.updateRec
  exact le_max_left _ _

/-- The inactivity malus keeps every record at or above the 1600 floor. -/
theorem upd_malus_ge (lead : List (String × Updater.PlayerRec))
    (h : ∀ pr ∈ lead, 1600 ≤ pr.2.rating) :
    ∀ pr ∈ Updater.inactivity_malus lead, 1600 ≤ pr.2.rating := by
  intro pr hpr
  rcases List.mem_map.mp hpr with ⟨pr0, hpr0, rfl⟩
  by_cases hbot : pr0.2.BOT
  · simpa [hbot] using h pr0 hpr0
  · simp only [if_neg hbot]
    by_cases hlow : pr0.2.rating - 10 < 1600
    · simp [hlow]
    · simp only [if_neg hlow]
      exact not_lt.mp hlow

/-- One app-side loop iteration preserves the floor invariant. -/
theorem app_processGame_inv (M : App.Model) (lb : List (String × App.PlayerRec))
    (g : Game) (h : ∀ pr ∈ lb, 1600 ≤ pr.2.rating) :
    ∀ pr ∈ App.processGame M lb g, 1600 ≤ pr.2.rating := by
  intro pr hpr
  have hpr2 : pr ∈ dictInsert lb (App.humanInfo g).user.name
      (App.updateRec M g
        (match lb.lookup (App.humanInfo g).user.name with
         | some r => r
         | none => App.freshRec (App.starting_rating
             (App.header_rating_of (App.humanInfo g).rating)))) := hpr
  rcases mem_dictInsert hpr2 with hin | heq
  · exact h pr hin
  · rw [heq]; exact app_updateRec_ge _ _ _

/-- The app recompute only ever produces records at or above the floor. -/
theorem app_recompute_inv (M : App.Model) (gs : List Game) :
    ∀ pr ∈ App.recompute M gs, 1600 ≤ pr.2.rating := by
  have main : ∀ (l : List Game) (lb : List (String × App.PlayerRec)),
      (∀ pr ∈ lb, 1600 ≤ pr.2.rating) →
      ∀ pr ∈ l.foldl (App.processGame M) lb, 1600 ≤ pr.2.rating := by
    intro l
    induction l with
    | nil => intro lb h; simpa using h
    | cons g l ih =>
      intro lb h
      exact ih _ (app_processGame_inv M lb g h)
  exact main _ [] (by simp)

/-- One updater-side loop iteration preserves the floor invariant. -/
theorem upd_processGame_inv (M : Updater.Model) (st : Updater.UState) (g : Game)
    (h : ∀ pr ∈ st.players, 1600 ≤ pr.2.rating) :
    ∀ pr ∈ (Updater.processGame M st g).players, 1600 ≤ pr.2.rating := by
  have body : ∀ (st' : Updater.UState),
      (∀ pr ∈ st'.players, 1600 ≤ pr.2.rating) →
      ∀ pr ∈ (Updater.processGameBody M st' g).players, 1600 ≤ pr.2.rating := by
    intro st' h' pr hpr
    have hpr2 : pr ∈ dictInsert st'.players (Updater.humanInfo g).user.name
        (Updater.updateRec M g
          (match st'.players.lookup (Updater.humanInfo g).user.name with
           | some r => r
           | none => Updater.freshRec)) := hpr
    rcases mem_dictInsert hpr2 with hin | heq
    · exact h' pr hin
    · rw [heq]; exact upd_updateRec_ge _ _ _
  unfold Updater.processGame
  split
  · intro pr hpr; exact h pr hpr
  · split
    · exact body _ (upd_malus_ge st.players h)
    · exact body _ h

/-- The updater recompute only ever produces records at or above the floor. -/
theorem upd_recompute_inv (M : Updater.Model) (gs : List Game) :
    ∀ pr ∈ (Updater.recompute M gs).players, 1600 ≤ pr.2.rating := by
  have main : ∀ (l : List Game) (st : Updater.UState),
      (∀ pr ∈ st.players, 1600 ≤ pr.2.rating) →
      ∀ pr ∈ (l.foldl (Updater.processGame M) st).players, 1600 ≤ pr.2.rating := by
    intro l
    induction l with
    | nil => intro st h; simpa using h
    | cons g l ih =>
      intro st h
      exact ih _ (upd_processGame_inv M st g h)
  exact main _ _ (by simp)

/-- On a player's first processed game, app.py seeds the record with the
tiered rule applied to the header rating, then applies the game update. -/
theorem app_processGame_first (M : App.Model)
    (lb : List (String × App.PlayerRec)) (g : Game)
    (h : lb.lookup (App.humanInfo g).user.name = none) :
    App.processGame M lb g
      = dictInsert lb (App.humanInfo g).user.name
          (App.updateRec M g (App.freshRec (App.starting_rating
            (App.header_rating_of (App.humanInfo g).rating)))) := by
  simp only [App.processGame, h]

/-- On a player's first processed game, updater.py seeds the record at the
flat `INITIAL_PLAYER_RATING`, then applies the game update. -/
theorem upd_processGameBody_first (M : Updater.Model) (st : Updater.UState)
    (g : Game) (h : st.players.lookup (Updater.humanInfo g).user.name = none) :
    Updater.processGameBody M st g
      = { st with players := (dictInsert st.players
            (Updater.humanInfo g).user.name
            (Updater.updateRec M g Updater.freshRec)) } := by
  simp only [Updater.processGameBody, h]

/-- `dict.update` leaves keys absent from the written records unchanged. -/
theorem dictUpdate_lookup_not_mem {β : Type} (other m : List (String × β))
    (k : String) (h : k ∉ other.map (·.1)) :
    (dictUpdate m other).lookup k = m.lookup k := by
  induction other generalizing m with
  | nil => rfl
  | cons kv tl ih =>
    have h1 : k ∉ tl.map (·.1) := fun hx => h (by simp [hx])
    have h2 : k ≠ kv.1 := fun hx => h (by simp [hx])
    have h3 : dictUpdate m (kv :: tl) = dictUpdate (dictInsert m kv.1 kv.2) tl := rfl
    rw [h3, ih _ h1, dictInsert_lookup_other _ _ _ _ h2]

/-! ## Concrete evaluation helpers -/

/-- Bob's record after the updater recompute of his single no-winner game:
seeded at the flat 1800 and unchanged by the zero-delta draw update. -/
def recBobAfter : Updater.PlayerRec :=
  { rating := 1800, W := 0, D := 1, L := 0, last_game := "2025-02-24",
    tc_bases := [180], tc_incs := [2] }

/-- Evaluation of the updater per-game update on Bob's first game. -/
theorem upd_eval_updateRec_bob :
    Updater.updateRec updTestModel gBobDraw Updater.freshRec = recBobAfter := by
  have hbw : Updater.botIsWhite gBobDraw = false := by decide
  have hdate : utcDate "-" (1740355200000 : Int) = "2025-02-24" := by decide
  unfold Updater.updateRec
  norm_num [Updater.resultFor, gBobDraw, Updater.kUsed, Updater.k_thresh,
    Updater.freshRec, Updater.clockParts, Updater.humanColor, hbw, hdate,
    updTestModel, Updater.effectiveBotRating, Updater.INITIAL_PLAYER_RATING,
    recBobAfter]

/-- Evaluation of the updater recompute on the one-game archive `[gBobDraw]`. -/
theorem upd_eval_recompute_bob :
    Updater.recompute updTestModel [gBobDraw] =
    { players := [("bob", recBobAfter)],
      malus_date := RATING_START_TIMESTAMP } := by
  have h1 : Updater.recompute updTestModel [gBobDraw]
      = Updater.processGame updTestModel
          { players := [], malus_date := RATING_START_TIMESTAMP } gBobDraw := by
    simp [Updater.recompute, sortByCreatedAt]
  rw [h1]
  have h2 : Updater.processGame updTestModel
      { players := [], malus_date := RATING_START_TIMESTAMP } gBobDraw
      = Updater.processGameBody updTestModel
          { players := [], malus_date := RATING_START_TIMESTAMP } gBobDraw := by
    unfold Updater.processGame
    rw [if_neg (by decide), if_neg (by decide)]
  rw [h2, upd_processGameBody_first updTestModel _ gBobDraw (by rfl)]
  have h5 : (Updater.humanInfo gBobDraw).user.name = "bob" := by decide
  rw [h5, upd_eval_updateRec_bob]
  rfl

/-- Carol's record after her 31st processed game in app.py's recompute:
`k_tresh 30 = 40`, so the win moves 1700 to 1720. -/
def recCarolAfter : App.PlayerRec :=
  { rating := 1720, games := 31, last_game := "2025.02.24",
    tc_base_values := [180], tc_inc_values := [2] }

/-- Evaluation of the app per-game update on Carol's 31st game. -/
theorem app_eval_updateRec_carol :
    App.updateRec appTestModel gCarolWin rec30 = recCarolAfter := by
  have htc : App.tcOf gCarolWin = "180+2" := by decide
  have hparse : App.parse_time_control_parts "180+2" = some (180, 2, 260) := by
    decide
  have hdate : utcDate "." gCarolWin.createdAt = "2025.02.24" := by decide
  have hr : App.resultFor gCarolWin = 1 := by decide
  have hbea : App.botEloAdjusted appTestModel gCarolWin = 2450 := by
    have hbb : App.botIsBlack gCarolWin = true := by decide
    have hts : gCarolWin.createdAt = 1740355200000 := rfl
    norm_num [App.botEloAdjusted, hbb, hts, App.botElo, App.elo_tresh_0,
      App.elo_tresh_1, appTestModel]
  unfold App.updateRec
  rw [htc, hparse]
  norm_num [hr, hbea, App.kUsed, App.k_tresh, rec30, hdate, recCarolAfter,
    appTestModel]

/-- A one-player malus-eligible state at the rating-start date. -/
def stAlice : Updater.UState :=
  { players := [("alice", recAlice1700)],
    malus_date := RATING_START_TIMESTAMP }

/-! ## Claims -/

/-- Claim C1 (amended): in app.py's recompute, every human player's first
processed game seeds the record by the tiered rule on the header rating
(header ≥ 2000 → 1800; 1800 ≤ header < 2000 → header − 200; otherwise 1600;
e.g. 2200 → 1800, 1750 → 1600); in updater.py's recompute, a
first-appearance record is instead seeded at the flat constant 1800,
ignoring the header rating. -/
theorem claim_C1 :
    (∀ (M : App.Model) (lb : List (String × App.PlayerRec)) (g : Game),
      lb.lookup (App.humanInfo g).user.name = none →
      App.processGame M lb g = dictInsert lb (App.humanInfo g).user.name
        (App.updateRec M g (App.freshRec (App.starting_rating
          (App.header_rating_of (App.humanInfo g).rating)))))
    ∧ (∀ h : Int, 2000 ≤ h → App.starting_rating h = 1800)
    ∧ (∀ h : Int, 1800 ≤ h → h < 2000 → App.starting_rating h = (h : ℚ) - 200)
    ∧ (∀ h : Int, h < 1800 → App.starting_rating h = 1600)
    ∧ App.starting_rating 2200 = 1800
    ∧ App.starting_rating 1750 = 1600
    ∧ (∀ (M : Updater.Model) (st : Updater.UState) (g : Game),
      st.players.lookup (Updater.humanInfo g).user.name = none →
      Updater.processGameBody M st g
        = { st with players := (dictInsert st.players
            (Updater.humanInfo g).user.name
            (Updater.updateRec M g Updater.freshRec)) })
    ∧ Updater.freshRec.rating = 1800 := by
  refine ⟨app_processGame_first, ?_, ?_, ?_, ?_, ?_,
    upd_processGameBody_first, rfl⟩
  · intro h hh
    simp [App.starting_rating, hh]
  · intro h h1 h2
    rw [App.starting_rating, if_neg (by omega), if_pos h1]
  · intro h hh
    rw [App.starting_rating, if_neg (by omega), if_neg (by omega)]
  · decide
  · decide

/-- Claim C1, counterexample: `bob`, header rating 1750, plays a single
no-winner (zero-delta) game; updater.py's recompute leaves him at the flat
seed 1800, while the tiered rule of the claim demands seed 1600. -/
theorem claim_C1_counterexample :
    (Updater.recompute updTestModel [gBobDraw]).players
        = [("bob", recBobAfter)]
    ∧ recBobAfter.rating = 1800
    ∧ gBobDraw.white.rating = some (some 1750)
    ∧ App.starting_rating (App.header_rating_of (some (some 1750))) = 1600
    ∧ ((1800 : ℚ) ≠ 1600) := by
  refine ⟨?_, rfl, rfl, by decide, by norm_num⟩
  rw [upd_eval_recompute_bob]

/-- Claim C1, witness: the app-side first-appearance seeding applied to a
concrete first game, and the tiered rule at header 2200. -/
theorem claim_C1_witness :
    (([] : List (String × App.PlayerRec)).lookup
        (App.humanInfo gAliceLoss).user.name = none)
    ∧ App.processGame appTestModel [] gAliceLoss
        = dictInsert [] (App.humanInfo gAliceLoss).user.name
            (App.updateRec appTestModel gAliceLoss
              (App.freshRec (App.starting_rating
                (App.header_rating_of (App.humanInfo gAliceLoss).rating))))
    ∧ (2000 : Int) ≤ 2200 ∧ App.starting_rating 2200 = 1800 :=
  ⟨rfl, claim_C1.1 appTestModel [] gAliceLoss rfl, by decide,
    claim_C1.2.1 2200 (by decide)⟩

/-- Claim C2 (amended): in both recomputes the game's K-factor is selected
from the games the player has played before it, and a draw uses exactly half
the non-draw K.  In updater.py the boundaries are as claimed (the 30th game
— 29 prior games — uses K=40, the 31st uses 20, the 150th uses 20, the 151st
uses 10).  In app.py `k_tresh` compares with `≤`, so the 31st game (30 prior
games) still uses K=40 and the 151st still uses K=20: the steps fall one
game later than claimed. -/
theorem claim_C2 :
    Updater.k_thresh 29 = 40 ∧ Updater.k_thresh 30 = 20
    ∧ Updater.k_thresh 149 = 20 ∧ Updater.k_thresh 150 = 10
    ∧ (∀ n : Nat, Updater.kUsed n (1/2) = Updater.k_thresh n / 2)
    ∧ (∀ (n : Nat) (r : ℚ), r ≠ 1/2 → Updater.kUsed n r = Updater.k_thresh n)
    ∧ App.k_tresh 29 = 40 ∧ App.k_tresh 30 = 40 ∧ App.k_tresh 31 = 20
    ∧ App.k_tresh 149 = 20 ∧ App.k_tresh 150 = 20 ∧ App.k_tresh 151 = 10
    ∧ (∀ n : Nat, App.kUsed n (1/2) = App.k_tresh n / 2)
    ∧ (∀ (n : Nat) (r : ℚ), r ≠ 1/2 → App.kUsed n r = App.k_tresh n) := by
  refine ⟨by norm_num [Updater.k_thresh], by norm_num [Updater.k_thresh],
    by norm_num [Updater.k_thresh], by norm_num [Updater.k_thresh],
    fun n => by simp [Updater.kUsed],
    fun n r hr => by simp only [Updater.kUsed]; rw [if_neg hr],
    by norm_num [App.k_tresh], by norm_num [App.k_tresh],
    by norm_num [App.k_tresh], by norm_num [App.k_tresh],
    by norm_num [App.k_tresh], by norm_num [App.k_tresh],
    fun n => by simp [App.kUsed],
    fun n r hr => by simp only [App.kUsed]; rw [if_neg hr]⟩

/-- Claim C2, counterexample: `carol` has 30 games on record, so `gCarolWin`
is her 31st; app.py's recompute updates her win with K=40
(1700 → 1720), while the claimed K=20 for a 31st game would land at 1710. -/
theorem claim_C2_counterexample :
    rec30.games = 30
    ∧ App.updateRec appTestModel gCarolWin rec30 = recCarolAfter
    ∧ recCarolAfter.rating = 1720
    ∧ rec30.rating + (1 - (1/2 : ℚ)) * 20 = 1710
    ∧ ((1720 : ℚ) ≠ 1710) :=
  ⟨rfl, app_eval_updateRec_carol, rfl, by norm_num [rec30], by norm_num⟩

/-- Claim C2, witness: the no-halving conjuncts applied at a win (result 1)
with zero games played. -/
theorem claim_C2_witness :
    ((1 : ℚ) ≠ 1/2)
    ∧ Updater.kUsed 0 1 = Updater.k_thresh 0
    ∧ App.kUsed 0 1 = App.k_tresh 0 :=
  ⟨by norm_num, claim_C2.2.2.2.2.2.1 0 1 (by norm_num),
    claim_C2.2.2.2.2.2.2.2.2.2.2.2.2.2 0 1 (by norm_num)⟩

/-- Claim C3 (confirmed): in updater.py's recompute, a game falling at or
beyond `malus_date + MALUS_INTERVAL` (in particular exactly at the boundary)
triggers exactly one inactivity-malus application — every non-exempt
player's rating drops by 10, re-floored at 1600 — with `malus_date` reset to
the game's timestamp, before the game's own result is applied; a game below
the boundary triggers none. -/
theorem claim_C3 :
    (∀ (M : Updater.Model) (st : Updater.UState) (g : Game),
      RATING_START_TIMESTAMP ≤ g.createdAt →
      g.createdAt = st.malus_date + Updater.MALUS_INTERVAL →
      Updater.processGame M st g = Updater.processGameBody M
        { players := Updater.inactivity_malus st.players,
          malus_date := g.createdAt } g)
    ∧ (∀ (M : Updater.Model) (st : Updater.UState) (g : Game),
      RATING_START_TIMESTAMP ≤ g.createdAt →
      g.createdAt - st.malus_date < Updater.MALUS_INTERVAL →
      Updater.processGame M st g = Updater.processGameBody M st g)
    ∧ (∀ lead : List (String × Updater.PlayerRec),
      Updater.inactivity_malus lead = lead.map (fun pr =>
        if pr.2.BOT then pr
        else (pr.1, { pr.2 with rating := max 1600 (pr.2.rating - 10) }))) := by
  refine ⟨?_, ?_, ?_⟩
  · intro M st g h1 h2
    unfold Updater.processGame
    rw [if_neg (not_lt.mpr h1), if_pos (by omega)]
  · intro M st g h1 h2
    unfold Updater.processGame
    rw [if_neg (not_lt.mpr h1), if_neg (by omega)]
  · intro lead
    unfold Updater.inactivity_malus
    congr 1
    funext pr
    by_cases hbot : pr.2.BOT
    · simp [hbot]
    · rcases lt_or_le (pr.2.rating - 10) 1600 with hlow | hlow
      · simp [hbot, hlow, max_eq_left (le_of_lt hlow)]
      · simp [hbot, not_lt.mpr hlow, max_eq_right hlow]

/-- Claim C3, witness: `gBobBoundary` falls exactly at
`malus_date + MALUS_INTERVAL` of a state holding `alice`, and triggers the
single malus application before bob's own update. -/
theorem claim_C3_witness :
    RATING_START_TIMESTAMP ≤ gBobBoundary.createdAt
    ∧ gBobBoundary.createdAt = stAlice.malus_date + Updater.MALUS_INTERVAL
    ∧ Updater.processGame updTestModel stAlice gBobBoundary
        = Updater.processGameBody updTestModel
            { players := Updater.inactivity_malus stAlice.players,
              malus_date := gBobBoundary.createdAt } gBobBoundary :=
  ⟨by decide, by decide,
    claim_C3.1 updTestModel stAlice gBobBoundary (by decide) (by decide)⟩

/-- Claim C4 (amended): updater.py maps results exactly as claimed (a record
with no `winner` field is a draw at 0.5; winner = human's colour gives 1.0,
else 0.0).  app.py instead treats a game as a draw exactly when
`status == "draw"`; a record with no `winner` field whose status is not
`"draw"` is scored 0.0 (a loss), not 0.5. -/
theorem claim_C4 :
    (∀ g : Game, g.winner = none → Updater.resultFor g = 1/2)
    ∧ (∀ (g : Game) (w : String), g.winner = some w →
        w = Updater.humanColor g → Updater.resultFor g = 1)
    ∧ (∀ (g : Game) (w : String), g.winner = some w →
        w ≠ Updater.humanColor g → Updater.resultFor g = 0)
    ∧ (∀ g : Game, g.status = "draw" → App.resultFor g = 1/2)
    ∧ (∀ g : Game, g.status ≠ "draw" →
        g.winner = some (App.playerColor g) → App.resultFor g = 1)
    ∧ (∀ g : Game, g.status ≠ "draw" →
        g.winner ≠ some (App.playerColor g) → App.resultFor g = 0) := by
  refine ⟨?_, ?_, ?_, ?_, ?_, ?_⟩
  · intro g h; simp [Updater.resultFor, h]
  · intro g w h hw; simp [Updater.resultFor, h, hw]
  · intro g w h hw; simp [Updater.resultFor, h, hw]
  · intro g h; simp [App.resultFor, h]
  · intro g h hw; simp [App.resultFor, h, hw]
  · intro g h hw; simp [App.resultFor, h, hw]

/-- Claim C4, counterexample: `gAborted` has no `winner` field and status
`"aborted"`; app.py scores it 0.0 for the human, not the claimed draw 0.5. -/
theorem claim_C4_counterexample :
    gAborted.winner = none ∧ gAborted.status ≠ "draw"
    ∧ App.resultFor gAborted = 0 ∧ ((0 : ℚ) ≠ 1/2) :=
  ⟨rfl, by decide, by decide, by norm_num⟩

/-- Claim C4, witness: the updater draw mapping on `gBobDraw` and the app
loss mapping on `gAliceLoss`. -/
theorem claim_C4_witness :
    gBobDraw.winner = none ∧ Updater.resultFor gBobDraw = 1/2
    ∧ gAliceLoss.status ≠ "draw"
    ∧ gAliceLoss.winner ≠ some (App.playerColor gAliceLoss)
    ∧ App.resultFor gAliceLoss = 0 :=
  ⟨rfl, claim_C4.1 gBobDraw rfl, by decide, by decide,
    claim_C4.2.2.2.2.2 gAliceLoss (by decide) (by decide)⟩

/-- Every entry of `dictUpdate m other` comes from `m` or carries a value
written by `other`. -/
theorem mem_dictUpdate {β : Type} :
    ∀ (other m : List (String × β)) (pr : String × β),
    pr ∈ dictUpdate m other → pr ∈ m ∨ pr.2 ∈ other.map (·.2) := by
  intro other
  induction other with
  | nil => intro m pr h; exact Or.inl h
  | cons kv tl ih =>
    intro m pr h
    have h2 : pr ∈ dictUpdate (dictInsert m kv.1 kv.2) tl := h
    rcases ih _ pr h2 with hin | hval
    · rcases mem_dictInsert hin with hm | hv
      · exact Or.inl hm
      · exact Or.inr (by simp [hv])
    · exact Or.inr (by simp; right; simpa using hval)

/-- Claim C5 (amended): updater.py's checkpoint is non-decreasing each cycle
and across any cycle sequence, never passes the stable cutoff
`current_time - REFETCH_DELAY` (given it starts at or below the first
cutoff and the clock is non-decreasing), and equals exactly the running
maximum `createdAt` over the fetched games at or before the cutoff.  app.py's
checkpoint (see the counterexample) takes the maximum over all fetched games
with no cutoff and can land inside the trailing re-fetch window. -/
theorem claim_C5 :
    (∀ (lf t : Int) (gs : List Game), lf ≤ Updater.cycleCheckpoint lf t gs)
    ∧ (∀ (lf t : Int) (gs : List Game), lf ≤ t - Updater.REFETCH_DELAY →
        Updater.cycleCheckpoint lf t gs ≤ t - Updater.REFETCH_DELAY)
    ∧ (∀ (lf c : Int) (gs : List Game),
        Updater.latestStableTimestamp lf c gs
          = (gs.filter (fun g => g.createdAt ≤ c)).foldl
              (fun a g => max a g.createdAt) lf)
    ∧ (∀ (lf0 : Int) (cs : List (Int × List Game)),
        List.Chain' (· ≤ ·) (lf0 :: Updater.runCheckpoints lf0 cs))
    ∧ (∀ (cs : List (Int × List Game)) (lf0 : Int),
        (∀ c ∈ cs.head?, lf0 ≤ c.1 - Updater.REFETCH_DELAY) →
        List.Chain' (fun a b => a.1 ≤ b.1) cs →
        List.Forall₂ (fun lf c => lf ≤ c.1 - Updater.REFETCH_DELAY)
          (Updater.runCheckpoints lf0 cs) cs) :=
  ⟨fun lf t gs => latestStable_ge gs lf _,
   fun lf t gs h => latestStable_le gs lf _ h,
   fun lf c gs => latestStable_eq_max gs lf c,
   fun lf0 cs => runCheckpoints_chain cs lf0,
   runCheckpoints_bounded⟩

/-- Claim C5, counterexample: a cycle of app.py at clock 1741000000000
fetching a game created at that same instant advances `last_fetch` to
1741000000000, strictly past the stabilization cutoff
`current_time - REFETCH_DELAY`. -/
theorem claim_C5_counterexample :
    gJustNow.createdAt = 1741000000000
    ∧ App.app_last_fetch 1740355200000 [gJustNow] = 1741000000000
    ∧ ((1741000000000 : Int) - Updater.REFETCH_DELAY
        < App.app_last_fetch 1740355200000 [gJustNow]) :=
  ⟨rfl, by decide, by decide⟩

/-- Claim C5, witness: one updater cycle at clock 1741000000000 starting
from the rating-start checkpoint stays at or below its stable cutoff, and
the one-cycle sequence satisfies the chain bound. -/
theorem claim_C5_witness :
    ((1740355200000 : Int) ≤ 1741000000000 - Updater.REFETCH_DELAY)
    ∧ Updater.cycleCheckpoint 1740355200000 1741000000000 [gJustNow]
        ≤ 1741000000000 - Updater.REFETCH_DELAY
    ∧ List.Forall₂ (fun lf c => lf ≤ c.1 - Updater.REFETCH_DELAY)
        (Updater.runCheckpoints 1740355200000
          [((1741000000000 : Int), [gJustNow])])
        [((1741000000000 : Int), [gJustNow])] := by
  refine ⟨by decide, claim_C5.2.1 _ _ _ (by decide),
    claim_C5.2.2.2.2 [((1741000000000 : Int), [gJustNow])] 1740355200000
      ?_ (by simp)⟩
  intro c hc
  have hceq : ((1741000000000 : Int), [gJustNow]) = c := by simpa using hc
  rw [← hceq]
  decide

/-- Claim C6 (amended): the merge appends exactly those incoming games whose
id is absent from the pre-merge archive, so re-merging an already-merged
batch (or an already-archived game) in a later cycle is a no-op, and the
no-duplicate-ids invariant is preserved whenever the incoming batch itself
has pairwise distinct ids.  A game repeated within one batch, however, is
appended twice (see the counterexample). -/
theorem claim_C6 :
    (∀ A gs : List Game, mergeGames A gs
        = A ++ gs.filter (fun g => g.id ∉ A.map (·.id)))
    ∧ (∀ A gs : List Game, mergeGames (mergeGames A gs) gs = mergeGames A gs)
    ∧ (∀ (A : List Game) (g : Game), g.id ∈ A.map (·.id) →
        mergeGames A [g] = A)
    ∧ (∀ A gs : List Game, (A.map (·.id)).Nodup → (gs.map (·.id)).Nodup →
        ((mergeGames A gs).map (·.id)).Nodup) :=
  ⟨mergeGames_eq_append, mergeGames_self_idem, mergeGames_mem_noop,
   mergeGames_nodup⟩

/-- Claim C6, counterexample: the id set is computed before the merge loop
and never extended, so a batch containing the same game twice appends it
twice, unlike merging it once, and leaves the archive with a duplicated id. -/
theorem claim_C6_counterexample :
    mergeGames [] [gAliceLoss, gAliceLoss] = [gAliceLoss, gAliceLoss]
    ∧ mergeGames [] [gAliceLoss] = [gAliceLoss]
    ∧ ([gAliceLoss, gAliceLoss] ≠ [gAliceLoss])
    ∧ ¬ ((mergeGames [] [gAliceLoss, gAliceLoss]).map (·.id)).Nodup :=
  ⟨by decide, by decide, by decide, by decide⟩

/-- Claim C6, witness: a distinct-id merge keeps ids pairwise distinct, and
re-merging an archived game is a no-op. -/
theorem claim_C6_witness :
    (([gAliceLoss].map (·.id)).Nodup) ∧ (([gCarolWin].map (·.id)).Nodup)
    ∧ ((mergeGames [gAliceLoss] [gCarolWin]).map (·.id)).Nodup
    ∧ gAliceLoss.id ∈ [gAliceLoss].map (·.id)
    ∧ mergeGames [gAliceLoss] [gAliceLoss] = [gAliceLoss] :=
  ⟨by decide, by decide, claim_C6.2.2.2 _ _ (by decide) (by decide),
   by decide, claim_C6.2.2.1 _ _ (by decide)⟩

/-- Claim C7 (confirmed): both per-game updates floor the new rating at
1600; the inactivity malus keeps every record at or above 1600; hence every
record produced by either recompute, and every record of the published
leaderboards (given, for updater.py, that the carried-over prior records
already satisfied the floor), is at least 1600 — for all models, players and
game histories. -/
theorem claim_C7 :
    (∀ (M : App.Model) (g : Game) (rec : App.PlayerRec),
        1600 ≤ (App.updateRec M g rec).rating)
    ∧ (∀ (M : Updater.Model) (g : Game) (rec : Updater.PlayerRec),
        1600 ≤ (Updater.updateRec M g rec).rating)
    ∧ (∀ lead : List (String × Updater.PlayerRec),
        (∀ pr ∈ lead, 1600 ≤ pr.2.rating) →
        ∀ pr ∈ Updater.inactivity_malus lead, 1600 ≤ pr.2.rating)
    ∧ (∀ (M : App.Model) (gs : List Game),
        ∀ pr ∈ App.recompute M gs, 1600 ≤ pr.2.rating)
    ∧ (∀ (M : Updater.Model) (gs : List Game),
        ∀ pr ∈ (Updater.recompute M gs).players, 1600 ≤ pr.2.rating)
    ∧ (∀ (M : App.Model) (gs : List Game),
        ∀ pr ∈ App.cycleRecords M gs, 1600 ≤ pr.2.rating)
    ∧ (∀ (M : Updater.Model) (prior : List (String × Updater.FinalRec))
        (gs : List Game),
        (∀ pr ∈ prior, 1600 ≤ pr.2.rating) →
        ∀ pr ∈ Updater.cycleRecords M prior gs, 1600 ≤ pr.2.rating) := by
  refine ⟨app_updateRec_ge, upd_updateRec_ge, upd_malus_ge,
    app_recompute_inv, upd_recompute_inv, ?_, ?_⟩
  · intro M gs pr hpr
    have h1 : pr ∈ (App.recompute M gs).map
        (fun pr => (pr.1, App.finalizeRec pr.2)) := by
      have h0 : pr ∈ ((App.recompute M gs).map
          (fun pr => (pr.1, App.finalizeRec pr.2))).mergeSort
          (fun a b => b.2.rating ≤ a.2.rating) := hpr
      exact List.mem_mergeSort.mp h0
    rcases List.mem_map.mp h1 with ⟨pr0, hpr0, rfl⟩
    exact app_recompute_inv M gs pr0 hpr0
  · intro M prior gs hprior pr hpr
    rcases mem_dictUpdate _ _ pr hpr with hin | hval
    · exact hprior pr hin
    · rcases List.mem_map.mp hval with ⟨v, hv, hveq⟩
      rcases List.mem_map.mp hv with ⟨pr0, hpr0, rfl⟩
      have : pr.2.rating = pr0.2.rating := by rw [← hveq]; rfl
      rw [this]
      exact upd_recompute_inv M gs pr0 hpr0

/-- Claim C7, witness: the floor facts at concrete inputs — Carol's 31st
game lands at or above 1600, the malus on a concrete 1700-rated record stays
at or above 1600, and the record computed from Bob's one-game archive is at
or above 1600. -/
theorem claim_C7_witness :
    (∀ pr ∈ stAlice.players, 1600 ≤ pr.2.rating)
    ∧ (∀ pr ∈ Updater.inactivity_malus stAlice.players, 1600 ≤ pr.2.rating)
    ∧ 1600 ≤ (App.updateRec appTestModel gCarolWin rec30).rating
    ∧ (∀ pr ∈ (Updater.recompute updTestModel [gBobDraw]).players,
        1600 ≤ pr.2.rating) := by
  have hbase : ∀ pr ∈ stAlice.players, 1600 ≤ pr.2.rating := by
    intro pr hpr
    have hpr2 : pr = ("alice", recAlice1700) := by simpa [stAlice] using hpr
    rw [hpr2]
    norm_num [recAlice1700]
  exact ⟨hbase, claim_C7.2.2.1 stAlice.players hbase,
    claim_C7.1 appTestModel gCarolWin rec30,
    claim_C7.2.2.2.2.1 updTestModel [gBobDraw]⟩

/-- Claim C8 (amended): app.py rebuilds the published player records
wholesale from the archive — two cycles over the same merged archive yield
identical records whatever the prior leaderboard or clock.  updater.py
instead `dict.update`s the recomputed records into the previously persisted
mapping, so a prior entry for a player absent from the archive persists and
the published mapping depends on prior leaderboard state (see the
counterexample). -/
theorem claim_C8 :
    (∀ (M : App.Model) (p1 p2 : App.Leaderboard) (a ng : List Game)
        (t1 t2 : Int),
        (App.cycle M p1 a ng t1).records = (App.cycle M p2 a ng t2).records)
    ∧ (∀ (M : Updater.Model) (prior : List (String × Updater.FinalRec))
        (a : List Game) (k : String),
        k ∉ ((Updater.recompute M a).players.map (·.1)) →
        (Updater.cycleRecords M prior a).lookup k = prior.lookup k) := by
  refine ⟨fun M p1 p2 a ng t1 t2 => rfl, ?_⟩
  intro M prior a k hk
  unfold Updater.cycleRecords
  apply dictUpdate_lookup_not_mem
  simpa using hk

/-- Claim C8, counterexample: over the same (empty) archive, an updater
cycle with a stale `ghost` record in the prior leaderboard publishes that
record, while a cycle with an empty prior publishes nothing — the records
depend on prior leaderboard state. -/
theorem claim_C8_counterexample :
    Updater.cycleRecords updTestModel [("ghost", recGhost)] []
        = [("ghost", recGhost)]
    ∧ Updater.cycleRecords updTestModel [] []
        = ([] : List (String × Updater.FinalRec))
    ∧ ([("ghost", recGhost)] ≠ ([] : List (String × Updater.FinalRec))) := by
  have hrec : (Updater.recompute updTestModel []).players = [] := by
    simp [Updater.recompute, sortByCreatedAt]
  refine ⟨?_, ?_, by simp⟩
  · unfold Updater.cycleRecords
    rw [hrec]
    rfl
  · unfold Updater.cycleRecords
    rw [hrec]
    rfl

/-- Claim C8, witness: the stale-key conjunct applied at the concrete ghost
record over the empty archive. -/
theorem claim_C8_witness :
    ("ghost" ∉ ((Updater.recompute updTestModel []).players.map (·.1)))
    ∧ (Updater.cycleRecords updTestModel [("ghost", recGhost)] []).lookup
        "ghost" = [("ghost", recGhost)].lookup "ghost" := by
  have hg : "ghost" ∉ ((Updater.recompute updTestModel []).players.map (·.1)) := by
    have hrec : (Updater.recompute updTestModel []).players = [] := by
      simp [Updater.recompute, sortByCreatedAt]
    rw [hrec]
    simp
  exact ⟨hg, claim_C8.2 updTestModel [("ghost", recGhost)] [] "ghost" hg⟩

/-- Claim C9 (amended): app.py's `fetch_games` behaves as claimed — on an
HTTP 429 it sleeps `int(Retry-After)` (10 when the header is absent) and
re-issues the same request window keeping all games fetched so far, so the
returned game sequence equals that of the same traffic with the 429
responses removed.  updater.py's `fetch_games_chunk`, however, sleeps a
fixed 60 seconds on 429 without reading `Retry-After` (and so can wait less
than the server requested; see the counterexample), though it likewise
re-issues the same request. -/
theorem claim_C9 :
    (∀ (since : Int) (u : Option Int) (ra : Option Int)
        (rest : List FetchResponse) (acc : List Game) (s : List Int),
        App.fetchGamesLoop since u (.rateLimited ra :: rest) acc s
          = App.fetchGamesLoop since u rest acc (s ++ [ra.getD 10]))
    ∧ (∀ (since : Int) (u : Option Int) (responses : List FetchResponse),
        (App.fetch_games since u responses).1
          = (App.fetch_games since u
              (responses.filter FetchResponse.isNot429)).1)
    ∧ (∀ (since : Int) (u : Option Int) (ra : Option Int)
        (rest : List FetchResponse) (s : List Int),
        Updater.fetchChunkLoop since u (.rateLimited ra :: rest) s
          = Updater.fetchChunkLoop since u rest (s ++ [60])) :=
  ⟨fun _ _ _ _ _ _ => rfl,
   fun since u responses => fetchLoop_games_filter429 responses since u [] [],
   fun _ _ _ _ _ => rfl⟩

/-- Claim C9, counterexample: served a 429 carrying `Retry-After: 120`,
updater.py's chunk fetcher sleeps 60 — less than the requested 120 and not
the header value — so the claimed read-the-header-and-wait-at-least-that-long
behaviour is violated there. -/
theorem claim_C9_counterexample :
    (Updater.fetch_games_chunk 0 none
        [.rateLimited (some 120), .ok []]).2 = [60]
    ∧ ¬ ((120 : Int) ≤ 60)
    ∧ ((60 : Int) ≠ Option.getD (some 120) 10) :=
  ⟨rfl, by decide, by decide⟩

/-- Claim C10 (confirmed): in app.py's recompute a missing header-rating
field, and one rejected by `int()`, both default to 1600, so a
first-appearance player with such a field is seeded exactly at the 1600
floor; the embedding of the recompute is a total function, so the malformed
field never aborts it. -/
theorem claim_C10 :
    App.header_rating_of none = 1600
    ∧ App.header_rating_of (some none) = 1600
    ∧ App.starting_rating 1600 = 1600
    ∧ (∀ (M : App.Model) (lb : List (String × App.PlayerRec)) (g : Game),
        lb.lookup (App.humanInfo g).user.name = none →
        ((App.humanInfo g).rating = none ∨ (App.humanInfo g).rating = some none) →
        App.processGame M lb g = dictInsert lb (App.humanInfo g).user.name
          (App.updateRec M g (App.freshRec 1600))) := by
  have hsr : App.starting_rating (App.header_rating_of none) = 1600 := by decide
  have hsr2 : App.starting_rating (App.header_rating_of (some none)) = 1600 := by
    decide
  refine ⟨rfl, rfl, by decide, ?_⟩
  intro M lb g hlk hmal
  rw [app_processGame_first M lb g hlk]
  rcases hmal with h | h
  · rw [h, hsr]
  · rw [h, hsr2]

/-- Claim C10, witness: `frank`'s first game carries a malformed header
rating; the seeding conjunct applies and seeds him at the 1600 floor. -/
theorem claim_C10_witness :
    (([] : List (String × App.PlayerRec)).lookup
        (App.humanInfo gMalformed).user.name = none)
    ∧ (App.humanInfo gMalformed).rating = some none
    ∧ App.processGame appTestModel [] gMalformed
        = dictInsert [] (App.humanInfo gMalformed).user.name
            (App.updateRec appTestModel gMalformed (App.freshRec 1600)) :=
  ⟨rfl, by decide, claim_C10.2.2.2 appTestModel [] gMalformed rfl
    (Or.inr (by decide))⟩
